import Mathlib

/-!
Verification development for the py-madvr client (madVR Envy TCP control).

The definitions below are a shallow embedding of the Python sources:
  * `src/madvr/notifications.py`  — `NotificationProcessor`
  * `src/pymadvr/madvr.py`        — `Madvr._process_notifications`, `_clear_attr`,
                                    `task_ping_device` (one iteration),
                                    `add_command_to_queue`, `_construct_command`,
                                    `send_command`
  * `src/pymadvr/simple_pool.py`  — `SimpleConnectionPool.send_command`
  * `src/pymadvr/consts.py`       — `MAX_COMMAND_QUEUE_SIZE`

Python strings are modelled as `String` / `List Char`; Python dicts as ordered
association lists (`Dict`) with the Python mutation semantics: assigning to an
existing key replaces the value in place, assigning a fresh key appends at the
tail.  Network I/O is modelled by an explicit list of per-attempt outcomes.
-/

namespace PyMadvr

/-! ### String utilities mirroring the Python operations used by the source -/

/-- Whitespace as recognised by Python `str.strip` / `str.split()` (ASCII part). -/
def isWs (c : Char) : Bool :=
  c = ' ' || c = '\t' || c = '\n' || c = '\r' || c = '\x0b' || c = '\x0c'

/-- Left part of Python `strip()`. -/
def ltrim (cs : List Char) : List Char := cs.dropWhile isWs

/-- Right part of Python `strip()` / `rstrip()`. -/
def rtrim (cs : List Char) : List Char := (cs.reverse.dropWhile isWs).reverse

/-- Python `str.strip()`. -/
def trimBoth (cs : List Char) : List Char := rtrim (ltrim cs)

/-- Python `s.split("\r\n")`: split on each (non-overlapping, leftmost) CR-LF pair. -/
def splitCRLF : List Char → List (List Char)
  | [] => [[]]
  | '\r' :: '\n' :: t => [] :: splitCRLF t
  | c :: t =>
    match splitCRLF t with
    | [] => [[c]]
    | h :: r => (c :: h) :: r

/-- Python `s.split(" ", 1)`: the part before the first space and, when a space
    occurs, the (possibly empty) remainder after it. -/
def split1 : List Char → List Char × Option (List Char)
  | [] => ([], none)
  | ' ' :: t => ([], some t)
  | c :: t =>
    match split1 t with
    | (a, b) => (c :: a, b)

/-- Worker for `pySplit`; `acc` holds the current token reversed. -/
def pySplitAux : List Char → List Char → List (List Char)
  | [], acc => if acc.isEmpty then [] else [acc.reverse]
  | c :: t, acc =>
    if isWs c then
      if acc.isEmpty then pySplitAux t [] else acc.reverse :: pySplitAux t []
    else
      pySplitAux t (c :: acc)

/-- Python `s.split()` (no argument): split on whitespace runs, dropping empties. -/
def pySplit (cs : List Char) : List (List Char) := pySplitAux cs []

/-- Python `"HDR" in s`: substring test, specialised to the literal `"HDR"`. -/
def hasHDR : List Char → Bool
  | 'H' :: 'D' :: 'R' :: _ => true
  | _ :: t => hasHDR t
  | [] => false

/-! ### The device-state model

`NotificationProcessor.msg_dict` and `Madvr.msg_dict` are Python dicts mapping
attribute names to strings, booleans or floats.  A `float` value is represented
by its source token (the string handed to Python `float(...)`): no claim under
verification inspects the numeric value of a float, only equality of states
produced from equal inputs, for which the token is a faithful representation. -/

inductive MadvrValue where
  | str (s : String)
  | bool (b : Bool)
  | float (tok : String)
deriving DecidableEq, Repr

/-- A Python dict as an ordered association list. -/
abbrev Dict := List (String × MadvrValue)

/-- Python `d[k] = v`: replace in place when the key exists, append otherwise. -/
def dset : Dict → String → MadvrValue → Dict
  | [], k, v => [(k, v)]
  | (k', v') :: t, k, v => if k' = k then (k', v) :: t else (k', v') :: dset t k v

/-- Python `d.get(k)` / `d[k]` read. -/
def dlookup (k : String) : Dict → Option MadvrValue
  | [] => none
  | (k', v) :: t => if k' = k then some v else dlookup k t

/-- Python `d.update(m)` where `m` is given as an ordered list of pairs. -/
def dapply (d : Dict) (ops : List (String × MadvrValue)) : Dict :=
  ops.foldl (fun d kv => dset d kv.1 kv.2) d

/-- The keys of a dict, in order. -/
def dkeys (d : Dict) : List String := d.map Prod.fst

/-! ### `NotificationProcessor` (src/madvr/notifications.py)

Each `_process_*` helper evaluates a dict literal from the positional fields and
then calls `msg_dict.update`; an `IndexError` while building the literal is
caught by `_process_signal_info` before any mutation, so a helper either writes
its whole key group or nothing.  The `Option` below is `none` exactly when the
source would raise `IndexError` (too few fields). -/

/-- `_process_incoming_signal` (9 positional fields). -/
def incoming_signal_upd (info : List String) : Option (List (String × MadvrValue)) :=
  match info with
  | r :: fr :: ty :: cspace :: bd :: hdr :: col :: bl :: ar :: _ =>
    some [("is_signal", .bool true), ("incoming_res", .str r),
          ("incoming_frame_rate", .str fr), ("incoming_signal_type", .str ty),
          ("incoming_color_space", .str cspace), ("incoming_bit_depth", .str bd),
          ("hdr_flag", .bool (hasHDR hdr.data)), ("incoming_colorimetry", .str col),
          ("incoming_black_levels", .str bl), ("incoming_aspect_ratio", .str ar)]
  | _ => none

/-- `_process_outgoing_signal` (8 positional fields). -/
def outgoing_signal_upd (info : List String) : Option (List (String × MadvrValue)) :=
  match info with
  | r :: fr :: ty :: cspace :: bd :: hdr :: col :: bl :: _ =>
    some [("outgoing_res", .str r), ("outgoing_frame_rate", .str fr),
          ("outgoing_signal_type", .str ty), ("outgoing_color_space", .str cspace),
          ("outgoing_bit_depth", .str bd), ("outgoing_hdr_flag", .bool (hasHDR hdr.data)),
          ("outgoing_colorimetry", .str col), ("outgoing_black_levels", .str bl)]
  | _ => none

/-- `_process_aspect_ratio` (4 positional fields; `aspect_dec` is `float(info[1])`). -/
def aspect_upd (info : List String) : Option (List (String × MadvrValue)) :=
  match info with
  | r :: dec :: i :: nm :: _ =>
    some [("aspect_res", .str r), ("aspect_dec", .float dec),
          ("aspect_int", .str i), ("aspect_name", .str nm)]
  | _ => none

/-- `_process_masking_ratio` (3 positional fields; `masking_dec` is `float(info[1])`). -/
def masking_upd (info : List String) : Option (List (String × MadvrValue)) :=
  match info with
  | r :: dec :: i :: _ =>
    some [("masking_res", .str r), ("masking_dec", .float dec), ("masking_int", .str i)]
  | _ => none

/-- `_process_profile` (2 positional fields). -/
def profile_upd (info : List String) : Option (List (String × MadvrValue)) :=
  match info with
  | nm :: num :: _ => some [("profile_name", .str nm), ("profile_num", .str num)]
  | _ => none

/-- `_process_mac_address` (`info[0]`). -/
def mac_upd (info : List String) : Option (List (String × MadvrValue)) :=
  match info with
  | m :: _ => some [("mac_address", .str m)]
  | _ => none

/-- `_process_temperatures` (4 positional fields). -/
def temperatures_upd (info : List String) : Option (List (String × MadvrValue)) :=
  match info with
  | g :: h :: c :: m :: _ =>
    some [("temp_gpu", .str g), ("temp_hdmi", .str h),
          ("temp_cpu", .str c), ("temp_mainboard", .str m)]
  | _ => none

/-- `_process_signal_info`: dispatch on the title; unrecognised titles do nothing. -/
def signal_info_upd (title : String) (info : List String) :
    Option (List (String × MadvrValue)) :=
  if title = "IncomingSignalInfo" then incoming_signal_upd info
  else if title = "OutgoingSignalInfo" then outgoing_signal_upd info
  else if title = "AspectRatio" then aspect_upd info
  else if title = "MaskingRatio" then masking_upd info
  else if title = "ActivateProfile" then profile_upd info
  else if title = "ActiveProfile" then profile_upd info
  else if title = "MacAddress" then mac_upd info
  else if title = "Temperatures" then temperatures_upd info
  else none

/-- One loop iteration of `process_notifications`: the key/value group a single
    line writes (`none` = the line is skipped or its processor writes nothing).
    Mirrors the source exactly, including the `len(parts) < 2 → continue` guard
    that drops every line without a space. -/
def process_line_upd (line : List Char) : Option (List (String × MadvrValue)) :=
  if line = [] || line = "OK".data then none
  else
    match split1 line with
    | (_, none) => none
    | (titleCs, some rest) =>
      if (⟨titleCs⟩ : String) = "PowerOff" then some [("is_on", .bool false)]
      else if (⟨titleCs⟩ : String) = "NoSignal" then some [("is_signal", .bool false)]
      else if (⟨titleCs⟩ : String) = "Standby" then some [("is_on", .bool false)]
      else signal_info_upd ⟨titleCs⟩ ((pySplit rest).map (fun cs => (⟨cs⟩ : String)))

/-- Apply an optional key/value group to a dict. -/
def applyUpd (d : Dict) : Option (List (String × MadvrValue)) → Dict
  | none => d
  | some kvs => dapply d kvs

/-- `msg.strip().split("\r\n")`. -/
def lines_of (msg : String) : List (List Char) := splitCRLF (trimBoth msg.data)

/-- `NotificationProcessor.process_notifications`: fold every line of the batch
    into the accumulator `msg_dict` and return the whole accumulator. -/
def process_notifications (d : Dict) (msg : String) : Dict :=
  (lines_of msg).foldl (fun d l => applyUpd d (process_line_upd l)) d

/-- All dict writes of a batch, flattened in execution order. -/
def ops_of (msg : String) : List (String × MadvrValue) :=
  ((lines_of msg).map (fun l => (process_line_upd l).getD [])).flatten

/-! ### `Madvr` client-side state handling (src/pymadvr/madvr.py) -/

/-- Python truthiness of `d.get(key)` results, as used by
    `if processed_data.get("power_off")` and `msg_dict.get("is_on", False)`.
    For a stored float the source tests `x != 0.0`; the token model returns
    `true` there — the keys this test is ever applied to (`power_off`, `is_on`)
    never hold a float (only `aspect_dec` / `masking_dec` are floats). -/
def truthy : Option MadvrValue → Bool
  | none => false
  | some (.bool b) => b
  | some (.str s) => s != ""
  | some (.float _) => true

/-- `Madvr._clear_attr`: delete every key except `mac_address`, then set
    `is_on = False`. -/
def clear_attr (d : Dict) : Dict :=
  dset (d.filter (fun kv => kv.1 == "mac_address")) "is_on" (.bool false)

/-- Python `==` on dicts: same keys with equal values, order irrelevant. -/
def dict_equiv (a b : Dict) : Bool :=
  decide ((∀ kv ∈ a, dlookup kv.1 b = some kv.2) ∧ (∀ kv ∈ b, dlookup kv.1 a = some kv.2))

/-- The `if processed_data.get("power_off"): await self._handle_power_off()`
    step of `Madvr._process_notifications` (the handler clears the client
    attributes; its `powered_off_recently` flag and stop signal are not part of
    the state the claims mention). -/
def power_off_step (p' c1 : Dict) : Dict :=
  if truthy (dlookup "power_off" p') then clear_attr c1 else c1

/-- The `if processed_data != self.msg_dict: self.msg_dict.update(processed_data)`
    step of `Madvr._process_notifications`. -/
def merge_step (p' c2 : Dict) : Dict :=
  if dict_equiv p' c2 then c2 else dapply c2 p'

/-- `Madvr._process_notifications`: run the processor on the message, stamp
    `_last_update` (the wall-clock value is passed in as `t`), run the power-off
    handler when the processor reported `power_off`, and merge the processor's
    accumulator into the client dict unless the two already compare equal.
    Returns (new client `msg_dict`, new processor `msg_dict`). -/
def client_process_notifications (client proc : Dict) (msg : String) (t : MadvrValue) :
    Dict × Dict :=
  (merge_step (process_notifications proc msg)
     (power_off_step (process_notifications proc msg) (dset client "_last_update" t)),
   process_notifications proc msg)

/-- One iteration of `Madvr.task_ping_device`: `available` is the outcome of
    the reachability probe `is_device_connectable`. -/
def ping_iteration (d : Dict) (available : Bool) : Dict :=
  if available then
    if !(truthy (dlookup "is_on" d)) then dset d "is_on" (.bool true) else d
  else
    if truthy (dlookup "is_on" d) then dset d "is_on" (.bool false) else d

/-! ### The bounded user-command queue (src/pymadvr/madvr.py, consts.py) -/

/-- `MAX_COMMAND_QUEUE_SIZE` from src/pymadvr/consts.py. -/
def MAX_COMMAND_QUEUE_SIZE : Nat := 100

/-- `Madvr.add_command_to_queue` against an `asyncio.Queue(maxsize = 100)`:
    `put_nowait` raises `QueueFull` when `qsize() >= maxsize`; the handler logs
    and drops.  The returned flag is `true` when the command was enqueued and
    `false` when it was dropped (the logged-drop path). -/
def add_command_to_queue (q : List (List String)) (c : List String) :
    List (List String) × Bool :=
  if MAX_COMMAND_QUEUE_SIZE ≤ q.length then (q, false) else (q ++ [c], true)

/-! ### `SimpleConnectionPool` (src/pymadvr/simple_pool.py)

The network is abstracted by a list of per-send-attempt outcomes:
`some r` means the attempt returned response `r` (itself an `Option String`,
`none` for an empty read), `none` means the attempt raised (wrapped into
`ConnectionError` by `MadvrConnection.send_command`).  Connection creation is
modelled as always succeeding (the claims under verification involve no
creation failure) and is counted; connections are numbered by creation order
and the ids closed by `_close_connection` are recorded. -/

inductive PoolRes where
  | ok (r : Option String)
  | connError
deriving DecidableEq, Repr

structure PoolState where
  conn : Option Nat
  nextId : Nat
  creations : Nat
  closed : List Nat
deriving DecidableEq, Repr

/-- The pool of a fresh `SimpleConnectionPool` (no connection yet). -/
def poolInit : PoolState := ⟨none, 0, 0, []⟩

/-- `_create_connection` (abstracted; counted). -/
def pool_create (st : PoolState) : Nat × PoolState :=
  (st.nextId,
   { conn := some st.nextId, nextId := st.nextId + 1,
     creations := st.creations + 1, closed := st.closed })

/-- `_close_connection`. -/
def pool_close_connection (st : PoolState) : PoolState :=
  match st.conn with
  | none => st
  | some c => { st with conn := none, closed := st.closed ++ [c] }

/-- `_get_connection`: reuse the live connection when present (a live modelled
    connection is healthy: `is_healthy` only checks that the writer is open),
    otherwise create a new one. -/
def pool_get_connection (st : PoolState) : Nat × PoolState :=
  match st.conn with
  | some c => (c, st)
  | none => pool_create st

/-- `SimpleConnectionPool.send_command`.  Returns the result, the new pool
    state, and the unconsumed attempt outcomes (each send attempt consumes
    exactly one outcome, so the remainder measures how many attempts ran).
    The idle-close timer only affects later teardown and is not modelled. -/
def pool_send_command (st : PoolState) (cmd : String)
    (outcomes : List (Option (Option String))) :
    PoolRes × PoolState × List (Option (Option String)) :=
  let (_, st1) := pool_get_connection st
  match outcomes with
  | [] => (.connError, st1, [])
  | some r :: rest => (.ok r, st1, rest)
  | none :: rest =>
    -- first attempt failed: close the failed connection, retry once on a new one
    let st2 := pool_close_connection st1
    let (_, st3) := pool_get_connection st2
    match rest with
    | [] => (.connError, st3, [])
    | some r :: rest2 => (.ok r, st3, rest2)
    | none :: rest2 => (.connError, st3, rest2)

/-! ### Command construction and `send_command` (src/pymadvr/madvr.py)

`Madvr._construct_command` iterates the `Commands` table imported from
`pymadvr.commands`, matching `cmd_bytes.decode("utf-8").rstrip()` against the
requested name, then appends the space-joined parameters and the footer. -/

/-- Python `str.rstrip()`. -/
def rstripStr (s : String) : String := ⟨rtrim s.data⟩

/-- Modelled from the spec: the module `pymadvr/commands.py` (the `Commands`
    wire-token table and `Footer` used by `Madvr._construct_command`) is not in
    the sources.  Per spec section 6 the command table maps each command name to
    its wire token, and the command names below are the ones the spec and the
    repository's own tests exercise. -/
def commandTokens : List String :=
  ["PowerOff", "Standby", "Restart", "ReloadSoftware", "Bye",
   "OpenMenu", "CloseMenu", "KeyPress", "KeyHold",
   "DisplayAlertWindow", "CloseAlertWindow", "DisplayMessage",
   "DisplayAudioVolume", "DisplayAudioMute", "CloseAudioMute",
   "GetIncomingSignalInfo", "GetOutgoingSignalInfo", "GetAspectRatio",
   "GetMaskingRatio", "GetTemperatures", "GetMacAddress",
   "ActivateProfile", "ToneMapOn", "ToneMapOff",
   "Hotplug", "RefreshLicenseInfo", "Force1080p60Output"]

/-- Modelled from the spec: `Footer` of the missing `pymadvr/commands.py`.
    Spec section 6 fixes the wire protocol to CRLF-terminated lines and calls
    the terminator "the fixed two-byte line terminator"; the repository's tests
    (src/tests/test_command_construction.py) pin the same two bytes. -/
def footerCRLF : List Char := ['\r', '\n']

/-- Python `" ".join(params)`. -/
def joinSpace : List String → List Char
  | [] => []
  | [x] => x.data
  | x :: r => x.data ++ ' ' :: joinSpace r

inductive CmdRes where
  | ok (s : String)
  | notImpl
deriving DecidableEq, Repr

/-- `Madvr._construct_command`:  raises `NotImplementedError` (.notImpl) for an
    empty command list or an unknown command name; otherwise the wire bytes are
    the first matching token, a space-joined parameter tail when parameters are
    present, and the footer.  (The second component of the Python return value,
    a type string used only for logging, is omitted.) -/
def construct_command (tokens : List String) : List String → CmdRes
  | [] => .notImpl
  | name :: params =>
    match tokens.find? (fun tk => rstripStr tk == name) with
    | some tk =>
      .ok ⟨tk.data ++ (match params with
                       | [] => []
                       | _ => ' ' :: joinSpace params) ++ footerCRLF⟩
    | none => .notImpl

inductive SendRes where
  | ok (r : Option String)
  | connError
  | notImplemented
deriving DecidableEq, Repr

/-- `Madvr.send_command` on the pool path (`direct = False`): construct the
    command (re-raising `NotImplementedError`), then hand the bytes to the
    connection pool.  The client's `msg_dict` is threaded through unchanged
    because the source never touches it here. -/
def madvr_send_command (st : PoolState) (msgDict : Dict) (command : List String)
    (outcomes : List (Option (Option String))) :
    SendRes × PoolState × Dict × List (Option (Option String)) :=
  match construct_command commandTokens command with
  | .notImpl => (.notImplemented, st, msgDict, outcomes)
  | .ok cmd =>
    match pool_send_command st cmd outcomes with
    | (.ok r, st', rest) => (.ok r, st', msgDict, rest)
    | (.connError, st', rest) => (.connError, st', msgDict, rest)

/-! ### Lemmas about the dict model -/

theorem dlookup_dset (d : Dict) (k k' : String) (v : MadvrValue) :
    dlookup k' (dset d k v) = if k = k' then some v else dlookup k' d := by
  induction d with
  | nil =>
    simp only [dset, dlookup]
  | cons kv t ih =>
    obtain ⟨k0, v0⟩ := kv
    simp only [dset, dlookup]
    by_cases h0 : k0 = k
    · simp only [if_pos h0, dlookup]
      subst h0
      by_cases h1 : k0 = k' <;> simp [h1]
    · simp only [if_neg h0, dlookup, ih]
      by_cases h1 : k0 = k' <;> by_cases h2 : k = k' <;> simp_all

theorem dkeys_dset (d : Dict) (k : String) (v : MadvrValue) :
    dkeys (dset d k v) = if k ∈ dkeys d then dkeys d else dkeys d ++ [k] := by
  induction d with
  | nil => simp [dset, dkeys]
  | cons kv t ih =>
    obtain ⟨k0, v0⟩ := kv
    by_cases h0 : k0 = k
    · subst h0
      simp [dset, dkeys]
    · have : ¬ k = k0 := fun h => h0 h.symm
      simp only [dset, if_neg h0, dkeys, List.map_cons] at *
      rw [ih]
      by_cases hm : k ∈ List.map Prod.fst t
      · simp [hm, this]
      · simp [hm, this]

theorem isSome_dlookup_iff (k : String) (d : Dict) :
    (dlookup k d).isSome ↔ k ∈ dkeys d := by
  induction d with
  | nil => simp [dlookup, dkeys]
  | cons kv t ih =>
    obtain ⟨k0, v0⟩ := kv
    by_cases h0 : k0 = k
    · subst h0
      simp [dlookup, dkeys]
    · have : ¬ k = k0 := fun h => h0 h.symm
      simp [dlookup, dkeys, h0, this, ih]

theorem dlookup_eq_none_of_not_mem {k : String} {d : Dict} (h : k ∉ dkeys d) :
    dlookup k d = none := by
  by_contra hc
  have hs : (dlookup k d).isSome := by
    cases hl : dlookup k d
    · exact absurd hl hc
    · rfl
  exact h ((isSome_dlookup_iff k d).mp hs)

theorem dlookup_mem {k : String} {d : Dict} {v : MadvrValue}
    (h : dlookup k d = some v) : (k, v) ∈ d := by
  induction d with
  | nil => simp [dlookup] at h
  | cons kv t ih =>
    obtain ⟨k0, v0⟩ := kv
    have hstep : dlookup k ((k0, v0) :: t) =
        if k0 = k then some v0 else dlookup k t := rfl
    rw [hstep] at h
    by_cases h0 : k0 = k
    · rw [if_pos h0] at h
      subst h0
      cases h
      exact List.mem_cons_self _ _
    · rw [if_neg h0] at h
      exact List.mem_cons_of_mem _ (ih h)

theorem nodup_dkeys_dset {d : Dict} (k : String) (v : MadvrValue)
    (h : (dkeys d).Nodup) : (dkeys (dset d k v)).Nodup := by
  rw [dkeys_dset]
  by_cases hm : k ∈ dkeys d
  · simpa [hm] using h
  · simp only [hm, if_false]
    simpa [List.nodup_append, hm] using h

/-- The last write a flattened op list performs on key `k`, if any. -/
def olast (ops : List (String × MadvrValue)) (k : String) : Option MadvrValue :=
  match ops with
  | [] => none
  | (k0, v0) :: t =>
    match olast t k with
    | some v => some v
    | none => if k0 = k then some v0 else none

theorem dlookup_dapply (d : Dict) (ops : List (String × MadvrValue)) (k : String) :
    dlookup k (dapply d ops) =
      match olast ops k with
      | some v => some v
      | none => dlookup k d := by
  induction ops generalizing d with
  | nil => simp [dapply, olast]
  | cons kv t ih =>
    obtain ⟨k0, v0⟩ := kv
    have step : dapply d ((k0, v0) :: t) = dapply (dset d k0 v0) t := rfl
    rw [step, ih, dlookup_dset]
    cases holt : olast t k with
    | some v => simp [olast, holt]
    | none =>
      simp only [olast, holt]
      by_cases h0 : k0 = k <;> simp [h0]

theorem olast_isSome_of_mem {ops : List (String × MadvrValue)} {k : String}
    {v : MadvrValue} (h : (k, v) ∈ ops) : (olast ops k).isSome := by
  induction ops with
  | nil => simp at h
  | cons kv t ih =>
    obtain ⟨k0, v0⟩ := kv
    rcases List.mem_cons.mp h with h1 | h1
    · cases h1
      cases holt : olast t k with
      | some w => simp [olast, holt]
      | none => simp [olast, holt]
    · have := ih h1
      cases holt : olast t k with
      | some w => simp [olast, holt]
      | none => simp [holt] at this

theorem olast_eq_none_of_forall_ne {ops : List (String × MadvrValue)} {k : String}
    (h : ∀ kv ∈ ops, kv.1 ≠ k) : olast ops k = none := by
  induction ops with
  | nil => rfl
  | cons kv t ih =>
    obtain ⟨k0, v0⟩ := kv
    have hk0 : k0 ≠ k := h (k0, v0) (List.mem_cons_self _ _)
    have ht : olast t k = none := ih (fun kv hkv => h kv (List.mem_cons_of_mem _ hkv))
    simp [olast, ht, hk0]

theorem olast_eq_dlookup {d : Dict} (hd : (dkeys d).Nodup) (k : String) :
    olast d k = dlookup k d := by
  induction d with
  | nil => rfl
  | cons kv t ih =>
    obtain ⟨k0, v0⟩ := kv
    have hnd : (dkeys t).Nodup := (List.nodup_cons.mp hd).2
    have hk0 : k0 ∉ dkeys t := (List.nodup_cons.mp hd).1
    have hstep : olast ((k0, v0) :: t) k =
        match olast t k with
        | some v => some v
        | none => if k0 = k then some v0 else none := rfl
    have hstep' : dlookup k ((k0, v0) :: t) =
        if k0 = k then some v0 else dlookup k t := rfl
    by_cases h0 : k0 = k
    · subst h0
      have hlt : dlookup k0 t = none := dlookup_eq_none_of_not_mem hk0
      have hol : olast t k0 = none := by rw [ih hnd, hlt]
      rw [hstep, hstep', hol]
      simp
    · rw [hstep, hstep', ih hnd, if_neg h0]
      cases dlookup k t <;> simp [h0]

theorem mem_dkeys_dapply_of_mem_ops {ops : List (String × MadvrValue)}
    {k : String} {v : MadvrValue} (d : Dict) (h : (k, v) ∈ ops) :
    k ∈ dkeys (dapply d ops) := by
  rw [← isSome_dlookup_iff, dlookup_dapply]
  cases holt : olast ops k with
  | some w => simp
  | none =>
    have hs := olast_isSome_of_mem h
    rw [holt] at hs
    simp at hs

theorem mem_dkeys_dapply_of_mem {ops : List (String × MadvrValue)} {k : String}
    {d : Dict} (h : k ∈ dkeys d) : k ∈ dkeys (dapply d ops) := by
  rw [← isSome_dlookup_iff, dlookup_dapply]
  cases holt : olast ops k with
  | some w => simp
  | none => simpa [isSome_dlookup_iff]

theorem dkeys_dapply_of_written (ops : List (String × MadvrValue)) (d : Dict)
    (h : ∀ kv ∈ ops, kv.1 ∈ dkeys d) : dkeys (dapply d ops) = dkeys d := by
  induction ops generalizing d with
  | nil => rfl
  | cons kv t ih =>
    obtain ⟨k0, v0⟩ := kv
    have hk0 : k0 ∈ dkeys d := h (k0, v0) (List.mem_cons_self _ _)
    have step : dapply d ((k0, v0) :: t) = dapply (dset d k0 v0) t := rfl
    have hkeys : dkeys (dset d k0 v0) = dkeys d := by
      rw [dkeys_dset, if_pos hk0]
    rw [step, ih (dset d k0 v0) (by
      intro kv hkv
      rw [hkeys]
      exact h kv (List.mem_cons_of_mem _ hkv)), hkeys]

theorem nodup_dkeys_dapply {d : Dict} (ops : List (String × MadvrValue))
    (h : (dkeys d).Nodup) : (dkeys (dapply d ops)).Nodup := by
  induction ops generalizing d with
  | nil => exact h
  | cons kv t ih =>
    obtain ⟨k0, v0⟩ := kv
    exact ih (nodup_dkeys_dset k0 v0 h)

theorem dict_ext : ∀ {a b : Dict}, (dkeys a).Nodup → (dkeys b).Nodup →
    dkeys a = dkeys b → (∀ k, dlookup k a = dlookup k b) → a = b := by
  intro a
  induction a with
  | nil =>
    intro b _ _ hk _
    cases b with
    | nil => rfl
    | cons kv t => simp [dkeys] at hk
  | cons kv t ih =>
    intro b hna hnb hk hl
    obtain ⟨k0, v0⟩ := kv
    cases b with
    | nil => simp [dkeys] at hk
    | cons kv' t' =>
      obtain ⟨k0', v0'⟩ := kv'
      simp only [dkeys, List.map_cons, List.cons.injEq] at hk
      obtain ⟨hkey, htail⟩ := hk
      subst hkey
      have hv : v0 = v0' := by
        have := hl k0
        simpa [dlookup] using this
      subst hv
      have hna' : (dkeys t).Nodup := (List.nodup_cons.mp hna).2
      have hnb' : (dkeys t').Nodup := (List.nodup_cons.mp hnb).2
      have hk0a : k0 ∉ dkeys t := (List.nodup_cons.mp hna).1
      have hk0b : k0 ∉ dkeys t' := (List.nodup_cons.mp hnb).1
      have hl' : ∀ k, dlookup k t = dlookup k t' := by
        intro k
        by_cases h0 : k0 = k
        · subst h0
          rw [dlookup_eq_none_of_not_mem hk0a, dlookup_eq_none_of_not_mem hk0b]
        · have := hl k
          simpa [dlookup, h0] using this
      rw [ih hna' hnb' htail hl']

theorem dapply_idem {d : Dict} (ops : List (String × MadvrValue))
    (h : (dkeys d).Nodup) : dapply (dapply d ops) ops = dapply d ops := by
  have h1 : (dkeys (dapply d ops)).Nodup := nodup_dkeys_dapply ops h
  have h2 : (dkeys (dapply (dapply d ops) ops)).Nodup := nodup_dkeys_dapply ops h1
  refine dict_ext h2 h1 ?_ ?_
  · refine dkeys_dapply_of_written ops (dapply d ops) ?_
    intro kv hkv
    obtain ⟨k, v⟩ := kv
    exact mem_dkeys_dapply_of_mem_ops d hkv
  · intro k
    rw [dlookup_dapply, dlookup_dapply]
    cases holt : olast ops k <;> simp

theorem process_eq_dapply (d : Dict) (msg : String) :
    process_notifications d msg = dapply d (ops_of msg) := by
  unfold process_notifications ops_of
  generalize lines_of msg = L
  induction L generalizing d with
  | nil => rfl
  | cons l t ih =>
    simp only [List.foldl_cons, List.map_cons, List.flatten_cons]
    have happ : applyUpd d (process_line_upd l) =
        dapply d ((process_line_upd l).getD []) := by
      cases h : process_line_upd l <;> simp [applyUpd, dapply, h]
    rw [happ, ih, dapply, dapply, dapply, List.foldl_append]

/-! ### The fixed key groups written by the notification decoder -/

/-- The fixed key group each recognised title overwrites
    (src/madvr/notifications.py, `_process_*` helpers). -/
def group_keys (title : String) : List String :=
  if title = "IncomingSignalInfo" then
    ["is_signal", "incoming_res", "incoming_frame_rate", "incoming_signal_type",
     "incoming_color_space", "incoming_bit_depth", "hdr_flag",
     "incoming_colorimetry", "incoming_black_levels", "incoming_aspect_ratio"]
  else if title = "OutgoingSignalInfo" then
    ["outgoing_res", "outgoing_frame_rate", "outgoing_signal_type",
     "outgoing_color_space", "outgoing_bit_depth", "outgoing_hdr_flag",
     "outgoing_colorimetry", "outgoing_black_levels"]
  else if title = "AspectRatio" then
    ["aspect_res", "aspect_dec", "aspect_int", "aspect_name"]
  else if title = "MaskingRatio" then
    ["masking_res", "masking_dec", "masking_int"]
  else if title = "ActivateProfile" then ["profile_name", "profile_num"]
  else if title = "ActiveProfile" then ["profile_name", "profile_num"]
  else if title = "MacAddress" then ["mac_address"]
  else if title = "Temperatures" then ["temp_gpu", "temp_hdmi", "temp_cpu", "temp_mainboard"]
  else []

/-- Every key the notification decoder can ever write. -/
def written_keys : List String :=
  ["is_on", "is_signal", "incoming_res", "incoming_frame_rate",
   "incoming_signal_type", "incoming_color_space", "incoming_bit_depth",
   "hdr_flag", "incoming_colorimetry", "incoming_black_levels",
   "incoming_aspect_ratio", "outgoing_res", "outgoing_frame_rate",
   "outgoing_signal_type", "outgoing_color_space", "outgoing_bit_depth",
   "outgoing_hdr_flag", "outgoing_colorimetry", "outgoing_black_levels",
   "aspect_res", "aspect_dec", "aspect_int", "aspect_name",
   "masking_res", "masking_dec", "masking_int",
   "profile_name", "profile_num", "mac_address",
   "temp_gpu", "temp_hdmi", "temp_cpu", "temp_mainboard"]

theorem fst_incoming {info : List String} {kvs : List (String × MadvrValue)}
    (h : incoming_signal_upd info = some kvs) :
    kvs.map Prod.fst =
      ["is_signal", "incoming_res", "incoming_frame_rate", "incoming_signal_type",
       "incoming_color_space", "incoming_bit_depth", "hdr_flag",
       "incoming_colorimetry", "incoming_black_levels", "incoming_aspect_ratio"] := by
  unfold incoming_signal_upd at h
  split at h
  · cases h; rfl
  · exact absurd h (by simp)

theorem fst_outgoing {info : List String} {kvs : List (String × MadvrValue)}
    (h : outgoing_signal_upd info = some kvs) :
    kvs.map Prod.fst =
      ["outgoing_res", "outgoing_frame_rate", "outgoing_signal_type",
       "outgoing_color_space", "outgoing_bit_depth", "outgoing_hdr_flag",
       "outgoing_colorimetry", "outgoing_black_levels"] := by
  unfold outgoing_signal_upd at h
  split at h
  · cases h; rfl
  · exact absurd h (by simp)

theorem fst_aspect {info : List String} {kvs : List (String × MadvrValue)}
    (h : aspect_upd info = some kvs) :
    kvs.map Prod.fst = ["aspect_res", "aspect_dec", "aspect_int", "aspect_name"] := by
  unfold aspect_upd at h
  split at h
  · cases h; rfl
  · exact absurd h (by simp)

theorem fst_masking {info : List String} {kvs : List (String × MadvrValue)}
    (h : masking_upd info = some kvs) :
    kvs.map Prod.fst = ["masking_res", "masking_dec", "masking_int"] := by
  unfold masking_upd at h
  split at h
  · cases h; rfl
  · exact absurd h (by simp)

theorem fst_profile {info : List String} {kvs : List (String × MadvrValue)}
    (h : profile_upd info = some kvs) :
    kvs.map Prod.fst = ["profile_name", "profile_num"] := by
  unfold profile_upd at h
  split at h
  · cases h; rfl
  · exact absurd h (by simp)

theorem fst_mac {info : List String} {kvs : List (String × MadvrValue)}
    (h : mac_upd info = some kvs) : kvs.map Prod.fst = ["mac_address"] := by
  unfold mac_upd at h
  split at h
  · cases h; rfl
  · exact absurd h (by simp)

theorem fst_temperatures {info : List String} {kvs : List (String × MadvrValue)}
    (h : temperatures_upd info = some kvs) :
    kvs.map Prod.fst = ["temp_gpu", "temp_hdmi", "temp_cpu", "temp_mainboard"] := by
  unfold temperatures_upd at h
  split at h
  · cases h; rfl
  · exact absurd h (by simp)

/-- A recognised title's processor writes exactly its fixed key group. -/
theorem signal_upd_group {title : String} {info : List String}
    {kvs : List (String × MadvrValue)} (h : signal_info_upd title info = some kvs) :
    kvs.map Prod.fst = group_keys title := by
  unfold signal_info_upd at h
  split_ifs at h with h1 h2 h3 h4 h5 h6 h7 h8
  · subst h1; rw [fst_incoming h]; decide
  · subst h2; rw [fst_outgoing h]; decide
  · subst h3; rw [fst_aspect h]; decide
  · subst h4; rw [fst_masking h]; decide
  · subst h5; rw [fst_profile h]; decide
  · subst h6; rw [fst_profile h]; decide
  · subst h7; rw [fst_mac h]; decide
  · subst h8; rw [fst_temperatures h]; decide

theorem group_sub_written (title : String) :
    ∀ k ∈ group_keys title, k ∈ written_keys := by
  intro k hk
  unfold group_keys at hk
  split_ifs at hk <;> first
    | (fin_cases hk <;> decide)
    | simp at hk

/-- Every key/value pair a line can write has its key among `written_keys`. -/
theorem keys_process_line {l : List Char} {kvs : List (String × MadvrValue)}
    (h : process_line_upd l = some kvs) : ∀ kv ∈ kvs, kv.1 ∈ written_keys := by
  unfold process_line_upd at h
  split at h
  · exact absurd h (by simp)
  · split at h
    · exact absurd h (by simp)
    · split_ifs at h with h1 h2 h3
      · cases h
        intro kv hkv
        fin_cases hkv <;> decide
      · cases h
        intro kv hkv
        fin_cases hkv <;> decide
      · cases h
        intro kv hkv
        fin_cases hkv <;> decide
      · intro kv hkv
        have hg := signal_upd_group h
        have : kv.1 ∈ kvs.map Prod.fst := List.mem_map_of_mem Prod.fst hkv
        rw [hg] at this
        exact group_sub_written _ _ this

/-- Every write of a whole batch has its key among `written_keys`. -/
theorem ops_keys_written (msg : String) :
    ∀ kv ∈ ops_of msg, kv.1 ∈ written_keys := by
  intro kv hkv
  unfold ops_of at hkv
  rw [List.mem_flatten] at hkv
  obtain ⟨chunk, hchunk, hkvc⟩ := hkv
  rw [List.mem_map] at hchunk
  obtain ⟨l, _, rfl⟩ := hchunk
  cases h : process_line_upd l with
  | none => rw [h] at hkvc; simp at hkvc
  | some kvs =>
    rw [h] at hkvc
    exact keys_process_line h kv (by simpa using hkvc)

/-- The decoder never writes a key outside `written_keys`; in particular the
    `power_off` flag checked by `Madvr._process_notifications` is never set. -/
theorem process_preserves_absent (P : Dict) (msg : String) (k : String)
    (hk : k ∉ written_keys) (h : dlookup k P = none) :
    dlookup k (process_notifications P msg) = none := by
  rw [process_eq_dapply, dlookup_dapply]
  have holn : olast (ops_of msg) k = none :=
    olast_eq_none_of_forall_ne
      (fun kv hkv he => hk (he ▸ ops_keys_written msg kv hkv))
  rw [holn, h]

/-! ### Claim theorems -/

/-- C1 (code bug): the spec requires that processing `"PowerOff\r\n"` after a
    prior state containing `mac_address` yields exactly
    `{is_on: false, mac_address: ...}`.  The code drops every line without a
    space (`len(parts) < 2 → continue`), so the bare `PowerOff` line is ignored,
    and the `power_off` flag the client checks is never set by the processor;
    evaluating the embedding at the spec's scenario shows the state keeps all
    its prior keys (plus the `_last_update` stamp) and `is_on` is never set. -/
theorem c1_power_off_line_dropped :
    process_notifications [] "PowerOff\r\n" = []
    ∧ (client_process_notifications
        [("mac_address", .str "AA:BB:CC:DD:EE:FF"), ("incoming_res", .str "3840x2160")]
        [] "PowerOff\r\n" (.str "t0")).1
      = [("mac_address", .str "AA:BB:CC:DD:EE:FF"), ("incoming_res", .str "3840x2160"),
         ("_last_update", .str "t0")]
    ∧ dlookup "is_on"
        (client_process_notifications
          [("mac_address", .str "AA:BB:CC:DD:EE:FF"), ("incoming_res", .str "3840x2160")]
          [] "PowerOff\r\n" (.str "t0")).1 = none := by
  decide

/-- C2 (code bug): blank lines and the bare `OK` token are indeed ignored while
    other lines are processed (first conjunct), but a single-word line such as
    `"NoSignal"` does NOT produce a title-only event: the `len(parts) < 2`
    guard drops it, so `is_signal` is never written (second/third conjuncts),
    contradicting the claim's title-only-event clause. -/
theorem c2_single_word_lines_dropped :
    process_notifications [("x", .str "y")] "OK\r\n\r\nMacAddress AA\r\n"
      = [("x", .str "y"), ("mac_address", .str "AA")]
    ∧ process_notifications [] "NoSignal\r\n" = []
    ∧ dlookup "is_signal" (process_notifications [] "NoSignal\r\n") = none := by
  decide

/-- C3 (confirmed; command table and footer modelled from the spec, see
    `commandTokens` / `footerCRLF`): for every command name present in the
    command table and every parameter list, encoding succeeds and the wire
    bytes end with the two-byte CRLF terminator, with nothing after it. -/
theorem c3_encoded_commands_end_with_crlf (name : String) (params : List String)
    (h : name ∈ commandTokens.map rstripStr) :
    ∃ s, construct_command commandTokens (name :: params) = .ok s
      ∧ "\r\n".data <:+ s.data := by
  rw [List.mem_map] at h
  obtain ⟨tk, htk, hname⟩ := h
  have hfind : (commandTokens.find? (fun t => rstripStr t == name)).isSome := by
    rw [List.find?_isSome]
    exact ⟨tk, htk, by simp [hname]⟩
  cases hfind' : commandTokens.find? (fun t => rstripStr t == name) with
  | none => rw [hfind'] at hfind; simp at hfind
  | some tk' =>
    refine ⟨⟨tk'.data ++ (match params with
                          | [] => []
                          | _ => ' ' :: joinSpace params) ++ footerCRLF⟩, ?_, ?_⟩
    · simp only [construct_command]
      rw [hfind']
    · have hdata : "\r\n".data = footerCRLF := by decide
      rw [hdata]
      exact List.suffix_append _ _

/-- Witness for C3 at the concrete command `["PowerOff", "Now"]`. -/
theorem c3_witness :
    "PowerOff" ∈ commandTokens.map rstripStr
    ∧ ∃ s, construct_command commandTokens ("PowerOff" :: ["Now"]) = .ok s
        ∧ "\r\n".data <:+ s.data :=
  ⟨by decide, c3_encoded_commands_end_with_crlf "PowerOff" ["Now"] (by decide)⟩

/-- C4 (confirmed): decoding a batch is idempotent on any accumulator (a dict,
    hence distinct keys), and each recognised title's processor either leaves
    the state untouched (too few fields) or overwrites its whole fixed key
    group at once. -/
theorem c4_decode_idempotent_and_group_atomic :
    (∀ (d : Dict) (msg : String), (dkeys d).Nodup →
        process_notifications (process_notifications d msg) msg
          = process_notifications d msg)
    ∧ (∀ (d : Dict) (title : String) (info : List String),
        applyUpd d (signal_info_upd title info) = d
        ∨ ∃ kvs, signal_info_upd title info = some kvs
            ∧ kvs.map Prod.fst = group_keys title
            ∧ ∀ k ∈ group_keys title,
                (dlookup k (applyUpd d (signal_info_upd title info))).isSome) := by
  constructor
  · intro d msg hd
    simp only [process_eq_dapply]
    exact dapply_idem _ hd
  · intro d title info
    cases h : signal_info_upd title info with
    | none =>
      left
      rfl
    | some kvs =>
      right
      refine ⟨kvs, rfl, signal_upd_group h, ?_⟩
      intro k hk
      have hk' : k ∈ kvs.map Prod.fst := by
        rw [signal_upd_group h]
        exact hk
      rw [List.mem_map] at hk'
      obtain ⟨kv, hkv, hfst⟩ := hk'
      have hmem : kv.1 ∈ dkeys (dapply d kvs) := by
        obtain ⟨k1, v1⟩ := kv
        exact mem_dkeys_dapply_of_mem_ops d hkv
      rw [hfst] at hmem
      rw [isSome_dlookup_iff]
      exact hmem

/-- Witness for C4: idempotence at a concrete state and batch, and the
    all-or-nothing update at a concrete `Temperatures` line. -/
theorem c4_witness :
    ((dkeys ([("a", MadvrValue.str "b")] : Dict)).Nodup
      ∧ process_notifications
          (process_notifications [("a", MadvrValue.str "b")]
            "MacAddress AA\r\nTemperatures 40 41 42 43\r\n")
          "MacAddress AA\r\nTemperatures 40 41 42 43\r\n"
        = process_notifications [("a", MadvrValue.str "b")]
            "MacAddress AA\r\nTemperatures 40 41 42 43\r\n")
    ∧ (applyUpd [] (signal_info_upd "Temperatures" ["40", "41", "42", "43"]) = ([] : Dict)
       ∨ ∃ kvs, signal_info_upd "Temperatures" ["40", "41", "42", "43"] = some kvs
           ∧ kvs.map Prod.fst = group_keys "Temperatures"
           ∧ ∀ k ∈ group_keys "Temperatures",
               (dlookup k (applyUpd []
                 (signal_info_upd "Temperatures" ["40", "41", "42", "43"]))).isSome) :=
  ⟨⟨by decide, c4_decode_idempotent_and_group_atomic.1 _ _ (by decide)⟩,
   c4_decode_idempotent_and_group_atomic.2 [] "Temperatures" ["40", "41", "42", "43"]⟩

/-- C5 (confirmed): starting from the empty pool, a failed first attempt makes
    the pool close connection 0, create exactly one replacement (2 creations
    total) and retry exactly once (exactly two outcomes consumed); a successful
    retry returns its response, a second failure surfaces as `ConnectionError`.
    The last conjunct states the general case: whatever live connection the
    pool holds, a first failure closes precisely that connection and triggers
    exactly one new creation. -/
theorem c5_pool_retries_exactly_once :
    (∀ (cmd : String) (r : Option String) (rest : List (Option (Option String))),
        pool_send_command poolInit cmd (none :: some r :: rest)
          = (.ok r, ⟨some 1, 2, 2, [0]⟩, rest))
    ∧ (∀ (cmd : String) (rest : List (Option (Option String))),
        pool_send_command poolInit cmd (none :: none :: rest)
          = (.connError, ⟨some 1, 2, 2, [0]⟩, rest))
    ∧ (∀ (c nid cr : Nat) (cl : List Nat) (cmd : String) (o : Option (Option String))
          (rest : List (Option (Option String))),
        (pool_send_command ⟨some c, nid, cr, cl⟩ cmd (none :: o :: rest)).2.1.creations
            = cr + 1
        ∧ c ∈ (pool_send_command ⟨some c, nid, cr, cl⟩ cmd (none :: o :: rest)).2.1.closed
        ∧ (pool_send_command ⟨some c, nid, cr, cl⟩ cmd (none :: o :: rest)).2.2 = rest) := by
  refine ⟨fun cmd r rest => rfl, fun cmd rest => rfl, ?_⟩
  intro c nid cr cl cmd o rest
  cases o <;>
    exact ⟨rfl, by simp [pool_send_command, pool_get_connection,
                         pool_close_connection, pool_create], rfl⟩

/-- C6 (confirmed): with the queue at (or beyond) the capacity of 100, an
    enqueue returns the queue unchanged and reports the drop; below capacity
    the command is appended at the tail. -/
theorem c6_queue_bounded_drop (q : List (List String)) (c : List String) :
    (MAX_COMMAND_QUEUE_SIZE ≤ q.length → add_command_to_queue q c = (q, false))
    ∧ (q.length < MAX_COMMAND_QUEUE_SIZE → add_command_to_queue q c = (q ++ [c], true)) := by
  constructor
  · intro h
    unfold add_command_to_queue
    rw [if_pos h]
  · intro h
    unfold add_command_to_queue
    rw [if_neg (by omega)]

/-- Witness for C6: a full queue of 100 entries drops the new command and is
    left unchanged; a singleton queue appends at the tail. -/
theorem c6_witness :
    (MAX_COMMAND_QUEUE_SIZE ≤ (List.replicate 100 ["KeyPress"]).length
      ∧ add_command_to_queue (List.replicate 100 ["KeyPress"]) ["OpenMenu"]
          = (List.replicate 100 ["KeyPress"], false))
    ∧ (([["KeyPress"]] : List (List String)).length < MAX_COMMAND_QUEUE_SIZE
      ∧ add_command_to_queue [["KeyPress"]] ["OpenMenu"]
          = ([["KeyPress"], ["OpenMenu"]], true)) :=
  ⟨⟨by decide, (c6_queue_bounded_drop _ _).1 (by decide)⟩,
   ⟨by decide, (c6_queue_bounded_drop _ _).2 (by decide)⟩⟩

/-- C7 counterexample: the ping loop, on an unreachable iteration with the
    device previously marked on, only flips `is_on` to `false`; it does NOT
    clear the device-state map — `incoming_res` survives, refuting the claim's
    "clears the device-state map" clause at this concrete input. -/
theorem c7_counterexample :
    ping_iteration [("is_on", .bool true), ("incoming_res", .str "3840x2160")] false
      = [("is_on", .bool false), ("incoming_res", .str "3840x2160")]
    ∧ dlookup "incoming_res"
        (ping_iteration [("is_on", .bool true), ("incoming_res", .str "3840x2160")] false)
      = some (.str "3840x2160") := by
  decide

/-- C7 amended (proved): each ping iteration sets `is_on := true` when the
    device is reachable and not already marked on, sets `is_on := false` when
    it is unreachable and marked on, and leaves every other key untouched — the
    state map is never cleared by the ping loop. -/
theorem c7_ping_sets_only_is_on (d : Dict) :
    (truthy (dlookup "is_on" d) = false →
        ping_iteration d true = dset d "is_on" (.bool true)
        ∧ ping_iteration d false = d)
    ∧ (truthy (dlookup "is_on" d) = true →
        ping_iteration d true = d
        ∧ ping_iteration d false = dset d "is_on" (.bool false))
    ∧ (∀ (a : Bool) (k : String), k ≠ "is_on" →
        dlookup k (ping_iteration d a) = dlookup k d) := by
  refine ⟨?_, ?_, ?_⟩
  · intro h
    constructor <;> simp [ping_iteration, h]
  · intro h
    constructor <;> simp [ping_iteration, h]
  · intro a k hk
    have hne : ¬ ("is_on" = k) := fun hh => hk hh.symm
    unfold ping_iteration
    cases a <;> cases htr : truthy (dlookup "is_on" d) <;>
      simp [htr, dlookup_dset, hne]

/-- Witness for C7's amended theorem at concrete states. -/
theorem c7_witness :
    (truthy (dlookup "is_on" ([] : Dict)) = false
      ∧ ping_iteration [] true = dset [] "is_on" (.bool true)
      ∧ ping_iteration [] false = [])
    ∧ (truthy (dlookup "is_on" [("is_on", MadvrValue.bool true)]) = true
      ∧ ping_iteration [("is_on", MadvrValue.bool true)] false
          = dset [("is_on", MadvrValue.bool true)] "is_on" (.bool false)) :=
  ⟨⟨by decide, (c7_ping_sets_only_is_on []).1 (by decide)⟩,
   ⟨by decide, ((c7_ping_sets_only_is_on [("is_on", MadvrValue.bool true)]).2.1 (by decide)).2⟩⟩

/-- The spec's example incoming-signal notification line. -/
def sample_incoming_line : String :=
  "IncomingSignalInfo 3840x2160 23.976p 2D 422 10bit HDR10 2020 TV 16:9\r\n"

/-- C8 (confirmed): processing the sample incoming-signal line, from any
    accumulator state, yields `incoming_res = "3840x2160"`, `hdr_flag = true`
    (the sixth field `"HDR10"` contains `"HDR"`), and
    `incoming_aspect_ratio = "16:9"`. -/
theorem c8_incoming_signal_scenario (d : Dict) :
    dlookup "incoming_res" (process_notifications d sample_incoming_line)
      = some (.str "3840x2160")
    ∧ dlookup "hdr_flag" (process_notifications d sample_incoming_line)
      = some (.bool true)
    ∧ dlookup "incoming_aspect_ratio" (process_notifications d sample_incoming_line)
      = some (.str "16:9") := by
  refine ⟨?_, ?_, ?_⟩
  · rw [process_eq_dapply, dlookup_dapply,
        (by decide : olast (ops_of sample_incoming_line) "incoming_res"
          = some (.str "3840x2160"))]
  · rw [process_eq_dapply, dlookup_dapply,
        (by decide : olast (ops_of sample_incoming_line) "hdr_flag"
          = some (.bool true))]
  · rw [process_eq_dapply, dlookup_dapply,
        (by decide : olast (ops_of sample_incoming_line) "incoming_aspect_ratio"
          = some (.str "16:9"))]

/-- C9 (confirmed): `process_notifications` returns the processor's whole
    accumulator and never clears it — every key present before a call is still
    present after it; and after the client's power-off handler has reduced the
    client dict to `mac_address`/`is_on`, the very next processed notification
    merges every accumulated key (with its accumulated value) back into the
    client state, because the processor's returned dict is merged wholesale. -/
theorem c9_accumulator_merged_back :
    (∀ (P : Dict) (msg : String) (k : String),
        (dlookup k P).isSome → (dlookup k (process_notifications P msg)).isSome)
    ∧ (∀ (C P : Dict) (msg : String) (t : MadvrValue) (k : String) (v : MadvrValue),
        (dkeys P).Nodup → dlookup "power_off" P = none →
        dlookup k (process_notifications P msg) = some v →
        dlookup k (client_process_notifications (clear_attr C) P msg t).1 = some v) := by
  constructor
  · intro P msg k h
    rw [process_eq_dapply, dlookup_dapply]
    cases holt : olast (ops_of msg) k with
    | some w => rfl
    | none => exact h
  · intro C P msg t k v hnd hpo hk
    have hpo' : dlookup "power_off" (process_notifications P msg) = none :=
      process_preserves_absent P msg _ (by decide) hpo
    have hproc_nd : (dkeys (process_notifications P msg)).Nodup := by
      rw [process_eq_dapply]
      exact nodup_dkeys_dapply _ hnd
    show dlookup k (merge_step (process_notifications P msg)
      (power_off_step (process_notifications P msg)
        (dset (clear_attr C) "_last_update" t))) = some v
    have hstep : power_off_step (process_notifications P msg)
        (dset (clear_attr C) "_last_update" t)
        = dset (clear_attr C) "_last_update" t := by
      unfold power_off_step
      rw [hpo']
      rfl
    rw [hstep]
    unfold merge_step
    by_cases heq : dict_equiv (process_notifications P msg)
        (dset (clear_attr C) "_last_update" t) = true
    · rw [if_pos heq]
      unfold dict_equiv at heq
      have hall := (of_decide_eq_true heq).1
      exact hall (k, v) (dlookup_mem hk)
    · rw [if_neg heq]
      rw [dlookup_dapply, olast_eq_dlookup hproc_nd, hk]

/-- Witness for C9: a concrete accumulator key survives a later call, and after
    a client-side power-off clear the next notification restores the
    accumulated `incoming_res` into the client state. -/
theorem c9_witness :
    ((dlookup "incoming_res" [("incoming_res", MadvrValue.str "4K")]).isSome
      ∧ (dlookup "incoming_res"
          (process_notifications [("incoming_res", MadvrValue.str "4K")]
            "MacAddress AA\r\n")).isSome)
    ∧ ((dkeys [("incoming_res", MadvrValue.str "4K")]).Nodup
      ∧ dlookup "power_off" [("incoming_res", MadvrValue.str "4K")] = none
      ∧ dlookup "incoming_res"
          (process_notifications [("incoming_res", MadvrValue.str "4K")]
            "MacAddress AA\r\n") = some (MadvrValue.str "4K")
      ∧ dlookup "incoming_res"
          (client_process_notifications
            (clear_attr [("mac_address", MadvrValue.str "AA"), ("is_signal", MadvrValue.bool true)])
            [("incoming_res", MadvrValue.str "4K")]
            "MacAddress AA\r\n" (MadvrValue.str "t1")).1 = some (MadvrValue.str "4K")) :=
  ⟨⟨by decide, c9_accumulator_merged_back.1
      [("incoming_res", MadvrValue.str "4K")] "MacAddress AA\r\n" "incoming_res" (by decide)⟩,
   ⟨by decide, by decide, by decide,
    c9_accumulator_merged_back.2
      [("mac_address", MadvrValue.str "AA"), ("is_signal", MadvrValue.bool true)]
      [("incoming_res", MadvrValue.str "4K")]
      "MacAddress AA\r\n" (MadvrValue.str "t1") "incoming_res" (MadvrValue.str "4K")
      (by decide) (by decide) (by decide)⟩⟩

/-- C10 (confirmed): `send_command` with an empty command list fails with
    `NotImplementedError` straight from `_construct_command`: no outcome of the
    network environment is consumed (no I/O is attempted), and both the pool
    state and the device-state dict are returned untouched. -/
theorem c10_empty_command_no_io (st : PoolState) (d : Dict)
    (outs : List (Option (Option String))) :
    madvr_send_command st d [] outs = (.notImplemented, st, d, outs) := rfl

end PyMadvr
